import Mathlib

/-!
# Verification of the hy-table-backend timetable recommendation engine

Shallow embedding of the candidate-generation and ranking engine of the
`hy-table-backend` repository, together with proofs settling the frozen
claims about it.

Embedding conventions:
* `"HH:MM"` time strings are represented by an `HMTime` structure holding the
  two numeric components that `timeToMinutes` extracts by splitting at `:`.
* TypeScript optional numeric fields (`number | null | undefined`) become
  `Option Nat`; JavaScript truthiness of such a field (`undefined`, `null`
  and `0` are all falsy) is captured by `optNatTruthy`.
* Optional arrays become plain lists (the source always guards them with a
  non-emptiness check, so `undefined` and `[]` behave identically).
* `Array.prototype.sort` (stable since ES2019) is modelled by the stable
  insertion sort `stableSort`, parametrised by the boolean relation
  `le a b ↔ comparator(a, b) ≤ 0` derived from the source's comparator.
-/

/-- Day-of-week enumeration, from `src/types` `DayOfWeek`. -/
inductive DayOfWeek where
  | MON | TUE | WED | THU | FRI | SAT | SUN
deriving DecidableEq, Repr, Inhabited

/-- The seven days, used to enumerate the string-keyed day-count records of
the source. -/
def daysList : List DayOfWeek :=
  [.MON, .TUE, .WED, .THU, .FRI, .SAT, .SUN]

/-- An `"HH:MM"` time string, represented by its two numeric components. -/
structure HMTime where
  hours : Nat
  minutes : Nat
deriving DecidableEq, Repr, Inhabited

/-- `timeToMinutes` from `src/utils/timeParser.ts`: minutes since midnight. -/
def timeToMinutes (t : HMTime) : Nat :=
  t.hours * 60 + t.minutes

/-- `TimeSlot` from `src/types`: a weekly meeting interval. -/
structure TimeSlot where
  day : DayOfWeek
  startTime : HMTime
  endTime : HMTime
deriving DecidableEq, Repr, Inhabited

/-- `timeSlotsOverlap` from `src/utils/timeParser.ts`: half-open interval
overlap on the same weekday. -/
def timeSlotsOverlap (slot1 slot2 : TimeSlot) : Bool :=
  if slot1.day ≠ slot2.day then false
  else
    let start1 := timeToMinutes slot1.startTime
    let end1 := timeToMinutes slot1.endTime
    let start2 := timeToMinutes slot2.startTime
    let end2 := timeToMinutes slot2.endTime
    decide (start1 < end2) && decide (start2 < end1)

/-- `isMorningTime` from `src/utils/timeParser.ts`. -/
def isMorningTime (t : HMTime) : Bool :=
  timeToMinutes t < 12 * 60

/-- `overlapsLunchTime` from `src/utils/timeParser.ts` (lunch 12:00-13:00). -/
def overlapsLunchTime (slot : TimeSlot) : Bool :=
  let start := timeToMinutes slot.startTime
  let finish := timeToMinutes slot.endTime
  decide (start < 13 * 60) && decide (finish > 12 * 60)

/-- `Course` from `src/types` (only the fields the engine reads). -/
structure Course where
  courseId : String
  name : String
  credits : Nat
  major : String
  category : String
  tags : List String
  meetingTimes : List TimeSlot
  deliveryType : String
deriving DecidableEq, Repr, Inhabited

/-- `FixedLecture` from `src/types`. -/
structure FixedLecture where
  courseId : String
  meetingTimes : List TimeSlot
deriving DecidableEq, Repr

/-- `BlockedTime` from `src/types`. -/
structure BlockedTime where
  day : DayOfWeek
  startTime : HMTime
  endTime : HMTime
deriving DecidableEq, Repr

/-- A blocked time viewed as the time slot the scheduler passes to
`timeSlotsOverlap` (TypeScript uses the record structurally). -/
def BlockedTime.toSlot (b : BlockedTime) : TimeSlot :=
  ⟨b.day, b.startTime, b.endTime⟩

/-- `UserConstraints` from `src/types`. -/
structure UserConstraints where
  avoidDays : List DayOfWeek := []
  preferOnlineOnlyDays : List DayOfWeek := []
  avoidMorning : Bool := false
  keepLunchTime : Bool := false
  maxClassesPerDay : Option Nat := none
  maxConsecutiveClasses : Option Nat := none
  avoidTeamProjects : Bool := false
  preferOnlineClasses : Bool := false
deriving DecidableEq, Repr

/-- JavaScript truthiness of an optional numeric field: `undefined`, `null`
and `0` are falsy. -/
def optNatTruthy : Option Nat → Bool
  | none => false
  | some n => n != 0

/-- Generation strategy enumeration. -/
inductive Strategy where
  | MAJOR_FOCUS | MIX | INTEREST_FOCUS
deriving DecidableEq, Repr

/-- `TimetableCandidate` from `src/types`. -/
structure TimetableCandidate where
  courses : List Course
  totalCredits : Nat
  score : Int
  timetableGrid : List TimeSlot
  conflicts : List String
  warnings : List String
deriving DecidableEq, Repr, Inhabited

/-- The two concrete boundary slots of the spec: MON 09:00-10:00. -/
def slotMon9to10 : TimeSlot := ⟨.MON, ⟨9, 0⟩, ⟨10, 0⟩⟩

/-- MON 10:00-11:00 (touching boundary). -/
def slotMon10to11 : TimeSlot := ⟨.MON, ⟨10, 0⟩, ⟨11, 0⟩⟩

/-- MON 09:59-10:30 (one-minute overlap). -/
def slotMon959to1030 : TimeSlot := ⟨.MON, ⟨9, 59⟩, ⟨10, 30⟩⟩

/-! ## String helpers modelling JavaScript string operations -/

/-- JavaScript `String.prototype.toLowerCase` (ASCII-level model). -/
def strToLower (s : String) : String :=
  String.mk (s.data.map Char.toLower)

/-- Character-list version of "starts with". -/
def charsStartWith : List Char → List Char → Bool
  | _, [] => true
  | [], _ :: _ => false
  | c :: cs, p :: ps => c == p && charsStartWith cs ps

/-- Character-list substring test. -/
def charsHaveSub : List Char → List Char → Bool
  | [], p => p.isEmpty
  | c :: cs, p => charsStartWith (c :: cs) p || charsHaveSub cs p

/-- JavaScript `String.prototype.includes` (substring containment). -/
def strIncludes (s pat : String) : Bool :=
  charsHaveSub s.data pat.data

/-- Code-point-wise lexicographic comparison of character lists. -/
def charsLE : List Char → List Char → Bool
  | [], _ => true
  | _ :: _, [] => false
  | c :: cs, d :: ds =>
      if c.toNat < d.toNat then true
      else if d.toNat < c.toNat then false
      else charsLE cs ds

/-- The order produced by `a.localeCompare(b) ≤ 0`, modelled as code-point
lexicographic string comparison. -/
def strLE (a b : String) : Bool :=
  charsLE a.data b.data

/-! ## A stable sort modelling `Array.prototype.sort` -/

/-- Insert `x` after every already-placed element `y` with `le y x`
(so equal elements keep their original relative order). -/
def insertBelow (le : α → α → Bool) (x : α) : List α → List α
  | [] => [x]
  | y :: ys => if le y x then y :: insertBelow le x ys else x :: y :: ys

/-- Stable insertion sort: the unique stable order that ECMAScript's stable
`Array.prototype.sort` produces for a consistent comparator `cmp`, with
`le a b ↔ cmp a b ≤ 0`. -/
def stableSort (le : α → α → Bool) (l : List α) : List α :=
  l.foldl (fun acc x => insertBelow le x acc) []

/-! ## SchedulerService (main copy, `src/services` scheduler) -/

/-- `SchedulerService.hasConflict`: some slot of `course` overlaps some slot
of an already-selected course. -/
def hasConflict (course : Course) (selection : List Course) : Bool :=
  selection.any fun selected =>
    course.meetingTimes.any fun slot1 =>
      selected.meetingTimes.any fun slot2 => timeSlotsOverlap slot1 slot2

/-- `SchedulerService.isValidSelection`: when `maxClassesPerDay` is truthy,
every day's class-slot count must not exceed it (days absent from the
source's count record have count `0`, which never exceeds a truthy bound). -/
def isValidSelection (courses : List Course) (constraints : UserConstraints) : Bool :=
  if optNatTruthy constraints.maxClassesPerDay then
    daysList.all fun d =>
      ((courses.flatMap Course.meetingTimes).countP fun slot => slot.day == d) ≤
        constraints.maxClassesPerDay.getD 0
  else true

/-- `SchedulerService.buildTimetableGrid`: all course slots then all fixed
lecture slots. -/
def buildTimetableGrid (courses : List Course) (fixedLectures : List FixedLecture) :
    List TimeSlot :=
  courses.flatMap Course.meetingTimes ++ fixedLectures.flatMap FixedLecture.meetingTimes

/-- `SchedulerService.filterValidCourses` (main copy): drops a course iff it
has no meeting times, or overlaps a fixed lecture, or overlaps a blocked
time. The `constraints` argument (the HARD constraint bundle) is accepted
but never read, exactly as in the source. -/
def filterValidCourses (courses : List Course) (fixedLectures : List FixedLecture)
    (blockedTimes : List BlockedTime) (constraints : UserConstraints) : List Course :=
  courses.filter fun course =>
    if course.meetingTimes.isEmpty then false
    else if fixedLectures.any (fun fixed => course.meetingTimes.any fun courseSlot =>
        fixed.meetingTimes.any fun fixedSlot => timeSlotsOverlap courseSlot fixedSlot) then
      false
    else if blockedTimes.any (fun blocked => course.meetingTimes.any fun courseSlot =>
        timeSlotsOverlap courseSlot blocked.toSlot) then
      false
    else true

/-- The per-course priority score computed inside the comparator of
`SchedulerService.sortCoursesByPriority`. -/
def coursePriorityScore (strategy : Strategy) (tracks interests : List String)
    (constraints : UserConstraints) (a : Course) : Nat :=
  let strategyBonus : Nat :=
    match strategy with
    | .MAJOR_FOCUS =>
        if !tracks.isEmpty && tracks.any (fun track =>
            strIncludes (strToLower a.major) (strToLower track) ||
            a.tags.any fun tag => strIncludes (strToLower tag) (strToLower track))
        then 100 else 0
    | .INTEREST_FOCUS =>
        if !interests.isEmpty && interests.any (fun interest =>
            strIncludes (strToLower a.name) (strToLower interest) ||
            a.tags.any fun tag => strIncludes (strToLower tag) (strToLower interest))
        then 100 else 0
    | .MIX => 0
  let onlineBonus : Nat :=
    if constraints.preferOnlineClasses && a.deliveryType == "ONLINE" then 20 else 0
  let teamBonus : Nat :=
    if constraints.avoidTeamProjects &&
        !(a.tags.any fun tag =>
          strIncludes (strToLower tag) "team" || strIncludes (strToLower tag) "팀플" ||
          strIncludes (strToLower tag) "group")
    then 15 else 0
  let morningBonus : Nat :=
    if constraints.avoidMorning && !(a.meetingTimes.any fun slot => isMorningTime slot.startTime)
    then 10 else 0
  let avoidDayBonus : Nat :=
    if !constraints.avoidDays.isEmpty &&
        !(a.meetingTimes.any fun slot => constraints.avoidDays.contains slot.day)
    then 10 else 0
  let lunchBonus : Nat :=
    if constraints.keepLunchTime && !(a.meetingTimes.any overlapsLunchTime)
    then 10 else 0
  strategyBonus + onlineBonus + teamBonus + morningBonus + avoidDayBonus + lunchBonus + a.credits

/-- The comparator of `sortCoursesByPriority`, as the boolean relation
`cmp a b ≤ 0`: tie-break lexicographically on course id (`localeCompare`),
otherwise higher priority score first. -/
def priorityLE (strategy : Strategy) (tracks interests : List String)
    (constraints : UserConstraints) (a b : Course) : Bool :=
  let scoreA := coursePriorityScore strategy tracks interests constraints a
  let scoreB := coursePriorityScore strategy tracks interests constraints b
  if scoreA = scoreB then strLE a.courseId b.courseId else decide (scoreB < scoreA)

/-- `SchedulerService.sortCoursesByPriority`: stable sort of a copy of the
course list by the composite heuristic comparator. -/
def sortCoursesByPriority (courses : List Course) (strategy : Strategy)
    (tracks interests : List String) (constraints : UserConstraints) : List Course :=
  stableSort (priorityLE strategy tracks interests constraints) courses

/-- The walk of `countConsecutiveViolations` over one day's slots, already
sorted by start time: runs separated by gaps over 30 minutes, each run
longer than the bound contributing its excess. -/
def violationsWalk (maxConsecutive : Nat) : TimeSlot → List TimeSlot → Nat → Nat
  | _, [], consecutive =>
      if consecutive > maxConsecutive then consecutive - maxConsecutive else 0
  | prev, s :: rest, consecutive =>
      if timeToMinutes s.startTime ≤ timeToMinutes prev.endTime + 30 then
        violationsWalk maxConsecutive s rest (consecutive + 1)
      else
        (if consecutive > maxConsecutive then consecutive - maxConsecutive else 0) +
          violationsWalk maxConsecutive s rest 1

/-- `SchedulerService.countConsecutiveViolations`. -/
def countConsecutiveViolations (slots : List TimeSlot) (maxConsecutive : Nat) : Nat :=
  (daysList.map fun d =>
    let daySorted := stableSort
      (fun a b => decide (timeToMinutes a.startTime ≤ timeToMinutes b.startTime))
      (slots.filter fun s => s.day == d)
    match daySorted with
    | [] => 0
    | s :: rest => violationsWalk maxConsecutive s rest 1).sum

/-- `SchedulerService.scoreCandidate`: fills `score` (clamped at 0) and the
consecutive-class warning, leaving every other field unchanged. -/
def scoreCandidate (candidate : TimetableCandidate) (targetCredits : Nat)
    (constraints : UserConstraints) (strategy : Strategy)
    (tracks interests : List String) : TimetableCandidate :=
  let score1 : Int :=
    100 - (((candidate.totalCredits : Int) - (targetCredits : Int)).natAbs * 5 : Nat)
  let score2 : Int :=
    match strategy with
    | .MAJOR_FOCUS =>
        score1 + ((candidate.courses.filter fun c =>
          tracks.any fun track =>
            strIncludes c.major track || c.tags.contains track).length * 10 : Nat)
    | .INTEREST_FOCUS =>
        score1 + ((candidate.courses.filter fun c =>
          interests.any fun interest =>
            strIncludes c.name interest || c.tags.contains interest).length * 10 : Nat)
    | .MIX => score1 + (candidate.courses.length * 5 : Nat)
  let consecutiveViolations : Nat :=
    if optNatTruthy constraints.maxConsecutiveClasses then
      countConsecutiveViolations candidate.timetableGrid
        (constraints.maxConsecutiveClasses.getD 0)
    else 0
  let score3 : Int := score2 - (consecutiveViolations * 5 : Nat)
  let warnings : List String :=
    if consecutiveViolations > 0 then
      [s!"연속 수업 제한을 {consecutiveViolations}회 초과했습니다."]
    else []
  let emptyDays : Nat :=
    ([DayOfWeek.MON, .TUE, .WED, .THU, .FRI].filter fun d =>
      (candidate.timetableGrid.countP fun s => s.day == d) == 0).length
  let score4 : Int := score3 + (emptyDays * 3 : Nat)
  let score5 : Int :=
    if constraints.preferOnlineClasses then
      score4 + ((candidate.courses.filter fun c => c.deliveryType == "ONLINE").length * 5 : Nat)
    else score4
  let score6 : Int :=
    if !constraints.preferOnlineOnlyDays.isEmpty then
      score5 + ((constraints.preferOnlineOnlyDays.filter fun day =>
        (candidate.courses.filter fun c =>
          c.meetingTimes.any fun slot => slot.day == day).all fun c =>
            c.deliveryType == "ONLINE").length * 8 : Nat)
    else score5
  { candidate with score := max 0 score6, warnings := warnings }

/-- The candidate record pushed by `SchedulerService.backtrack` when the
running selection reaches the credit target. -/
def emitCandidate (currentSelection : List Course) (currentCredits : Nat)
    (fixedLectures : List FixedLecture) : TimetableCandidate :=
  { courses := currentSelection
    totalCredits := currentCredits
    score := 0
    timetableGrid := buildTimetableGrid currentSelection fixedLectures
    conflicts := []
    warnings := [] }

/-- The `for` loop of `SchedulerService.backtrack`. Each iteration skips the
course if it would overshoot `target + 3` or conflicts with the current
selection, and otherwise performs the recursive `backtrack` call on the
remaining suffix — whose entry guards (cap reached / credits reached) are
inlined here so that the recursion is structural on the course list. -/
def backtrackGo (fixedLectures : List FixedLecture) (targetCredits : Nat)
    (constraints : UserConstraints) :
    List Course → List Course → Nat → List TimetableCandidate → Nat →
      List TimetableCandidate
  | [], _, _, candidates, _ => candidates
  | course :: rest, currentSelection, currentCredits, candidates, maxCandidates =>
      let candidates1 :=
        if currentCredits + course.credits > targetCredits + 3 then candidates
        else if hasConflict course currentSelection then candidates
        else if candidates.length ≥ maxCandidates then candidates
        else if currentCredits + course.credits ≥ targetCredits then
          if isValidSelection (currentSelection ++ [course]) constraints then
            candidates ++ [emitCandidate (currentSelection ++ [course])
              (currentCredits + course.credits) fixedLectures]
          else candidates
        else
          backtrackGo fixedLectures targetCredits constraints rest
            (currentSelection ++ [course]) (currentCredits + course.credits)
            candidates maxCandidates
      backtrackGo fixedLectures targetCredits constraints rest currentSelection
        currentCredits candidates1 maxCandidates

/-- `SchedulerService.backtrack`: return immediately once the candidate cap
is reached; emit the selection when the running credits reach the target and
the selection passes `isValidSelection`; otherwise run the loop over the
remaining courses. `blockedTimes`, `strategy`, `tracks` and `interests` are
threaded through unused, as in the source. -/
def backtrack (courses : List Course) (fixedLectures : List FixedLecture)
    (blockedTimes : List BlockedTime) (targetCredits : Nat)
    (constraints : UserConstraints) (strategy : Strategy)
    (tracks interests : List String) (currentSelection : List Course)
    (currentCredits : Nat) (candidates : List TimetableCandidate)
    (maxCandidates : Nat) : List TimetableCandidate :=
  if candidates.length ≥ maxCandidates then candidates
  else if currentCredits ≥ targetCredits then
    if isValidSelection currentSelection constraints then
      candidates ++ [emitCandidate currentSelection currentCredits fixedLectures]
    else candidates
  else
    backtrackGo fixedLectures targetCredits constraints courses currentSelection
      currentCredits candidates maxCandidates

/-- The request constraint bundle
`UserConstraints & \x7b hardConstraints?: UserConstraints \x7d`. -/
structure ConstraintsWithHard where
  soft : UserConstraints := {}
  hardConstraints : Option UserConstraints := none
deriving DecidableEq, Repr

/-- Debug counters returned by `generateCandidates`. -/
structure GenerateDebug where
  candidatesGenerated : Nat
  combinationsFilteredByBlockedTimes : Nat
deriving DecidableEq, Repr

/-- Result of `generateCandidates`. -/
structure GenerateResult where
  candidates : List TimetableCandidate
  debug : GenerateDebug
deriving DecidableEq, Repr

/-- `SchedulerService.generateCandidates` (main copy): split hard/soft
constraints, hard-filter, priority-sort, bounded backtracking with cap 50,
score every candidate with the soft constraints, sort by score
descending. -/
def generateCandidates (availableCourses : List Course)
    (fixedLectures : List FixedLecture) (blockedTimes : List BlockedTime)
    (targetCredits : Nat) (constraints : ConstraintsWithHard)
    (strategy : Strategy) (tracks interests : List String) : GenerateResult :=
  let initialCourseCount := availableCourses.length
  let hardConstraints := constraints.hardConstraints.getD {}
  let softConstraints := constraints.soft
  let validCourses0 :=
    filterValidCourses availableCourses fixedLectures blockedTimes hardConstraints
  let filteredByBlockedTimesCount := initialCourseCount - validCourses0.length
  let validCourses :=
    sortCoursesByPriority validCourses0 strategy tracks interests softConstraints
  let maxCandidates := 50
  let candidates := backtrack validCourses fixedLectures blockedTimes targetCredits
    softConstraints strategy tracks interests [] 0 [] maxCandidates
  let scoredCandidates := candidates.map fun candidate =>
    scoreCandidate candidate targetCredits softConstraints strategy tracks interests
  let sortedCandidates :=
    stableSort (fun a b => decide (b.score ≤ a.score)) scoredCandidates
  { candidates := sortedCandidates
    debug := { candidatesGenerated := sortedCandidates.length
               combinationsFilteredByBlockedTimes := filteredByBlockedTimesCount } }


/-! ## Response builder (`src/utils` response builder module) -/

/-- The Korean day-label map used throughout the response builder. -/
def dayLabel : DayOfWeek → String
  | .MON => "월요일"
  | .TUE => "화요일"
  | .WED => "수요일"
  | .THU => "목요일"
  | .FRI => "금요일"
  | .SAT => "토요일"
  | .SUN => "일요일"

/-- `details` of the failure response. -/
structure ErrorDetails where
  reason : String
  conflictingConstraints : List String
  suggestions : List String
deriving DecidableEq, Repr

/-- `ErrorResponse` of the response builder. -/
structure ErrorResponse where
  error : String
  details : ErrorDetails
deriving DecidableEq, Repr

/-- `satisfiesHardConstraints`: a candidate passes iff it records no
conflicts and none of its course slots overlaps a blocked time. The
`parsedConstraints` argument is accepted but never read, as in the
source. -/
def satisfiesHardConstraints (candidate : TimetableCandidate)
    (parsedConstraints : ConstraintsWithHard) (blockedTimes : List BlockedTime) : Bool :=
  if !candidate.conflicts.isEmpty then false
  else if blockedTimes.any (fun blocked => candidate.courses.any fun course =>
      course.meetingTimes.any fun mt => timeSlotsOverlap mt blocked.toSlot) then
    false
  else true

/-- `generateWarnings`: the warning strings attached to a returned
candidate (credit gap, soft-constraint shortfalls, per-day overload). -/
def generateWarnings (candidate : TimetableCandidate) (targetCredits : Nat)
    (parsedConstraints : ConstraintsWithHard) : List String :=
  let w1 : List String :=
    if candidate.totalCredits < targetCredits - 1 then
      let deficit := targetCredits - candidate.totalCredits
      [s!"목표 학점({targetCredits})보다 {deficit}학점 부족합니다."]
    else if candidate.totalCredits > targetCredits + 1 then
      let excess := candidate.totalCredits - targetCredits
      [s!"목표 학점({targetCredits})보다 {excess}학점 초과합니다."]
    else []
  let w2 : List String :=
    if !parsedConstraints.soft.avoidDays.isEmpty then
      let violatedDays := parsedConstraints.soft.avoidDays.filter fun day =>
        candidate.courses.any fun course => course.meetingTimes.any fun mt => mt.day == day
      if !violatedDays.isEmpty then
        let names := String.intercalate ", " (violatedDays.map dayLabel)
        [s!"회피 요청한 {names}에 수업이 있습니다."]
      else []
    else []
  let w3 : List String :=
    if parsedConstraints.soft.avoidMorning &&
        candidate.courses.any (fun course =>
          course.meetingTimes.any fun mt => mt.startTime.hours < 12) then
      ["오전 수업이 포함되어 있습니다."]
    else []
  let w4 : List String :=
    if parsedConstraints.soft.keepLunchTime &&
        candidate.courses.any (fun course => course.meetingTimes.any fun mt =>
          !(decide (timeToMinutes mt.endTime ≤ timeToMinutes ⟨12, 0⟩) ||
            decide (timeToMinutes mt.startTime ≥ timeToMinutes ⟨13, 0⟩))) then
      ["점심시간(12:00-13:00)에 수업이 있습니다."]
    else []
  let dayCount := fun (d : DayOfWeek) =>
    (candidate.courses.flatMap Course.meetingTimes).countP fun mt => mt.day == d
  let w5 : List String :=
    if optNatTruthy parsedConstraints.soft.maxClassesPerDay then
      let m := parsedConstraints.soft.maxClassesPerDay.getD 0
      (daysList.filter fun d => dayCount d > m).map fun d =>
        let label := dayLabel d
        let count := dayCount d
        s!"{label}에 {count}개 수업이 있어 제한({m}개)을 초과합니다."
    else []
  let w6 : List String :=
    if optNatTruthy parsedConstraints.soft.maxConsecutiveClasses then
      let m := parsedConstraints.soft.maxConsecutiveClasses.getD 0
      (daysList.filter fun d => dayCount d > m).map fun d =>
        let label := dayLabel d
        let count := dayCount d
        s!"{label}에 연속 수업이 {count}개로 제한({m}개)을 초과합니다."
    else []
  w1 ++ w2 ++ w3 ++ w4 ++ w5 ++ w6

/-- `generateExplanation`: the one-to-two-sentence Korean summary of a
returned candidate. -/
def generateExplanation (candidate : TimetableCandidate) (targetCredits : Nat)
    (parsedConstraints : ConstraintsWithHard) : String :=
  let p1 : String :=
    if ((candidate.totalCredits : Int) - (targetCredits : Int)).natAbs ≤ 1 then
      s!"목표 학점({targetCredits}학점)을 달성했습니다."
    else if candidate.totalCredits < targetCredits then
      let deficit := targetCredits - candidate.totalCredits
      s!"목표 학점보다 {deficit}학점 부족하지만"
    else
      let excess := candidate.totalCredits - targetCredits
      s!"목표 학점보다 {excess}학점 많지만"
  let satisfied1 : List String :=
    if !parsedConstraints.soft.avoidDays.isEmpty then
      let avoided := parsedConstraints.soft.avoidDays.filter fun day =>
        !(candidate.courses.any fun course =>
          course.meetingTimes.any fun mt => mt.day == day)
      if !avoided.isEmpty then ["회피 요청한 요일을 피했습니다"] else []
    else []
  let unsatisfied1 : List String :=
    if !parsedConstraints.soft.avoidDays.isEmpty then
      let avoided := parsedConstraints.soft.avoidDays.filter fun day =>
        !(candidate.courses.any fun course =>
          course.meetingTimes.any fun mt => mt.day == day)
      if avoided.isEmpty then ["일부 회피 요청 요일에 수업이 있습니다"] else []
    else []
  let lunchHit : Bool := candidate.courses.any fun course =>
    course.meetingTimes.any fun mt =>
      !(decide (timeToMinutes mt.endTime ≤ timeToMinutes ⟨12, 0⟩) ||
        decide (timeToMinutes mt.startTime ≥ timeToMinutes ⟨13, 0⟩))
  let satisfied2 : List String :=
    if parsedConstraints.soft.keepLunchTime && !lunchHit then ["점심시간을 비웠습니다"] else []
  let unsatisfied2 : List String :=
    if parsedConstraints.soft.keepLunchTime && lunchHit then ["점심시간이 일부 차단되었습니다"]
    else []
  let satisfied := satisfied1 ++ satisfied2
  let unsatisfied := unsatisfied1 ++ unsatisfied2
  let p2 : String :=
    if !satisfied.isEmpty then String.intercalate ", " satisfied ++ "습니다."
    else if !unsatisfied.isEmpty then String.intercalate ", " unsatisfied ++ "습니다."
    else "균형잡힌 시간표입니다."
  p1 ++ " " ++ p2

/-- `generateFailureExplanation`: the structured infeasibility diagnostic.
`basket` stands for `requestBody.basket` (the only request field read).
The source's falsy test `!hardConstraints.avoidDays` (field absent) is
modelled as the hard `avoidDays` list being empty. The final
`length > 0 ? list : []` of the source is the identity on lists and is
written as such. -/
def generateFailureExplanation (basket : List String)
    (parsedConstraints : ConstraintsWithHard) (targetCredits : Nat)
    (blockedTimes : List BlockedTime) : ErrorResponse :=
  let hard := parsedConstraints.hardConstraints.getD {}
  let cc1 : List String := if !blockedTimes.isEmpty then ["차단 시간"] else []
  let sg1 : List String :=
    if !blockedTimes.isEmpty then ["차단 시간을 줄이거나 조정해주세요"] else []
  let cc2 : List String := if !hard.avoidDays.isEmpty then ["회피 요일 (HARD)"] else []
  let sg2 : List String :=
    if !hard.avoidDays.isEmpty then
      let names := String.intercalate ", " (hard.avoidDays.map dayLabel)
      [s!"회피 요일({names})을 SOFT 제약으로 변경하거나 해제"]
    else []
  let cc3 : List String := if hard.avoidMorning then ["아침 수업 회피 (HARD)"] else []
  let sg3 : List String :=
    if hard.avoidMorning then ["아침 수업 회피를 SOFT 제약으로 변경하거나 해제"] else []
  let cc4 : List String := if hard.keepLunchTime then ["점심시간 보호 (HARD)"] else []
  let sg4 : List String :=
    if hard.keepLunchTime then ["점심시간 보호를 SOFT 제약으로 변경하거나 해제"] else []
  let cc5 : List String :=
    if !parsedConstraints.soft.avoidDays.isEmpty && hard.avoidDays.isEmpty then ["회피 요일"]
    else []
  let sg5 : List String :=
    if !parsedConstraints.soft.avoidDays.isEmpty && hard.avoidDays.isEmpty then
      let names := String.intercalate ", " (parsedConstraints.soft.avoidDays.map dayLabel)
      [s!"회피 요일({names})을 해제"]
    else []
  let cc6 : List String := if !basket.isEmpty then ["고정 과목"] else []
  let sg6 : List String := if !basket.isEmpty then ["고정 과목 1개를 해제해주세요"] else []
  let sg7 : List String :=
    if targetCredits > 15 then
      let lowered := targetCredits - 3
      [s!"목표 학점을 {lowered}로 낮추기"]
    else []
  let conflictingConstraints := cc1 ++ cc2 ++ cc3 ++ cc4 ++ cc5 ++ cc6
  let suggestions := sg1 ++ sg2 ++ sg3 ++ sg4 ++ sg5 ++ sg6 ++ sg7
  { error := "HARD 제약 조건 충돌"
    details :=
      { reason := "제약 조건을 모두 만족하는 시간표를 생성할 수 없습니다."
        conflictingConstraints := conflictingConstraints
        suggestions :=
          if suggestions.isEmpty then
            ["제약 조건을 완화해주세요", "목표 학점을 낮춰주세요", "고정 과목을 줄여주세요"]
          else suggestions } }

/-- One entry of the success response. -/
structure Recommendation where
  rank : Nat
  totalCredits : Nat
  score : Int
  explanation : String
  warnings : List String
  courses : List Course
deriving DecidableEq, Repr

/-- The run metadata echoed back in the success response's debug block. -/
structure RunMeta where
  candidatesGenerated : Nat
  geminiUsed : Bool
  executionTime : Nat
deriving DecidableEq, Repr

/-- The success response. -/
structure SuccessResponse where
  recommendations : List Recommendation
  debug : RunMeta
deriving DecidableEq, Repr

/-- Result of `buildRecommendationResponse`: success or structured failure. -/
inductive RecommendationOutcome where
  | success (response : SuccessResponse)
  | failure (response : ErrorResponse)
deriving DecidableEq, Repr

/-- `buildRecommendationResponse`: filter candidates by the HARD checks; if
none survive, return the structured failure diagnostic, else the top three
by score. Blocked times are taken already in structured form (the source
first normalizes the raw request's numeric day/hour format), and the
frontend color/day-number conversion of the success-branch course payload
is presentation-only and omitted: `courses` carries the candidate's courses
directly. -/
def buildRecommendationResponse (candidateTimetables : List TimetableCandidate)
    (parsedConstraints : ConstraintsWithHard) (blockedTimes : List BlockedTime)
    (basket : List String) (targetCredits : Nat) (runMeta : RunMeta) :
    RecommendationOutcome :=
  let validCandidates := candidateTimetables.filter fun candidate =>
    satisfiesHardConstraints candidate parsedConstraints blockedTimes
  if validCandidates.isEmpty then
    .failure (generateFailureExplanation basket parsedConstraints targetCredits blockedTimes)
  else
    let sortedCandidates := stableSort (fun a b => decide (b.score ≤ a.score)) validCandidates
    let topCandidates := sortedCandidates.take 3
    let recommendations := topCandidates.enum.map fun p =>
      { rank := p.1 + 1
        totalCredits := p.2.totalCredits
        score := p.2.score
        explanation := generateExplanation p.2 targetCredits parsedConstraints
        warnings := generateWarnings p.2 targetCredits parsedConstraints
        courses := p.2.courses : Recommendation }
    .success { recommendations := recommendations, debug := runMeta }

/-! ## Derived notions used by the claims -/

/-- Two courses conflict when some slot of one overlaps some slot of the
other (`CoursesConflict` of the spec; the inner loops of
`SchedulerService.hasConflict`). -/
def coursesConflict (a b : Course) : Bool :=
  a.meetingTimes.any fun slot1 => b.meetingTimes.any fun slot2 => timeSlotsOverlap slot1 slot2

/-- A selection is conflict-free when no two distinct member courses
conflict. -/
def ConflictFree (l : List Course) : Prop :=
  l.Pairwise fun a b => coursesConflict a b = false

/-- The course-id list of a candidate. -/
def candIds (cand : TimetableCandidate) : List String :=
  cand.courses.map Course.courseId

/-- Facts holding of every candidate newly emitted by a backtracking call
started at suffix `courses` with running selection `sel`: the emitted
selection extends `sel` by a sub-list of `courses`, it passed
`isValidSelection`, its credits lie in `[target, target + 3]`, and it is
internally conflict-free. -/
def EmittedOk (K : UserConstraints) (T : Nat) (courses sel : List Course)
    (cand : TimetableCandidate) : Prop :=
  (∃ ext, ext.Sublist courses ∧ cand.courses = sel ++ ext) ∧
  isValidSelection cand.courses K = true ∧
  T ≤ cand.totalCredits ∧ cand.totalCredits ≤ T + 3 ∧
  ConflictFree cand.courses


/-! ## Concrete inputs used by witnesses and counterexamples -/

/-- A 3-credit MON 09:00-10:00 course. -/
def courseA : Course :=
  { courseId := "CS101", name := "자료구조", credits := 3, major := "CS"
    category := "", tags := [], meetingTimes := [slotMon9to10]
    deliveryType := "OFFLINE" }

/-- A 3-credit TUE 09:00-10:00 course. -/
def courseB : Course :=
  { courseId := "CS102", name := "알고리즘", credits := 3, major := "CS"
    category := "", tags := [], meetingTimes := [⟨.TUE, ⟨9, 0⟩, ⟨10, 0⟩⟩]
    deliveryType := "OFFLINE" }

/-- Two mutually non-overlapping 3-credit courses (spec scenario A). -/
def witnessPool : List Course := [courseA, courseB]

/-- A course whose own two meeting slots overlap each other. -/
def courseDup : Course :=
  { courseId := "CS103", name := "중복시간", credits := 3, major := ""
    category := "", tags := []
    meetingTimes := [slotMon9to10, ⟨.MON, ⟨9, 30⟩, ⟨10, 30⟩⟩]
    deliveryType := "OFFLINE" }

/-- A 1-credit MON 09:00-10:00 course. -/
def courseM1 : Course :=
  { courseId := "M1", name := "", credits := 1, major := "", category := ""
    tags := [], meetingTimes := [slotMon9to10], deliveryType := "OFFLINE" }

/-- A 1-credit MON 10:00-11:00 course. -/
def courseM2 : Course :=
  { courseId := "M2", name := "", credits := 1, major := "", category := ""
    tags := [], meetingTimes := [slotMon10to11], deliveryType := "OFFLINE" }

/-- A 1-credit MON 11:00-12:00 course. -/
def courseM3 : Course :=
  { courseId := "M3", name := "", credits := 1, major := "", category := ""
    tags := [], meetingTimes := [⟨.MON, ⟨11, 0⟩, ⟨12, 0⟩⟩]
    deliveryType := "OFFLINE" }

/-- Three pairwise non-overlapping 1-credit MON courses. -/
def monPool : List Course := [courseM1, courseM2, courseM3]

/-- A 3-credit course meeting only on MON. -/
def courseMon : Course :=
  { courseId := "CS200", name := "월요과목", credits := 3, major := ""
    category := "", tags := [], meetingTimes := [slotMon9to10]
    deliveryType := "OFFLINE" }

/-- A blocked MON 09:00-10:00 interval. -/
def blockedMon : BlockedTime := ⟨.MON, ⟨9, 0⟩, ⟨10, 0⟩⟩

/-- Soft `maxClassesPerDay = 2`, nothing marked hard. -/
def softMax2 : ConstraintsWithHard := ⟨{ maxClassesPerDay := some 2 }, none⟩

/-- The first candidate generated from the two-course pool at target 6. -/
def witnessCand : TimetableCandidate :=
  ((generateCandidates witnessPool [] [] 6 {} .MIX [] []).candidates).getD 0 default

/-- The first candidate from the same pool under soft `maxClassesPerDay = 2`. -/
def witnessCandC3 : TimetableCandidate :=
  ((generateCandidates witnessPool [] [] 6 softMax2 .MIX [] []).candidates).getD 0 default

/-! ## Helper lemmas -/

/-- Slot overlap is a symmetric predicate. -/
theorem timeSlotsOverlap_symm (a b : TimeSlot) :
    timeSlotsOverlap a b = timeSlotsOverlap b a := by
  unfold timeSlotsOverlap
  by_cases h : a.day = b.day
  · simp only [h, ne_eq, not_true_eq_false, if_false]
    by_cases h1 : timeToMinutes a.startTime < timeToMinutes b.endTime <;>
      by_cases h2 : timeToMinutes b.startTime < timeToMinutes a.endTime <;>
        simp [h1, h2]
  · have h' : ¬b.day = a.day := fun hba => h hba.symm
    simp [h, h']

/-- Course conflict is a symmetric predicate. -/
theorem coursesConflict_symm (a b : Course) :
    coursesConflict a b = coursesConflict b a := by
  rw [Bool.eq_iff_iff]
  unfold coursesConflict
  simp only [List.any_eq_true]
  constructor
  · rintro ⟨s1, h1, s2, h2, hov⟩
    exact ⟨s2, h2, s1, h1, by rw [timeSlotsOverlap_symm]; exact hov⟩
  · rintro ⟨s2, h2, s1, h1, hov⟩
    exact ⟨s1, h1, s2, h2, by rw [timeSlotsOverlap_symm]; exact hov⟩

/-- `hasConflict` is `any coursesConflict` over the selection. -/
theorem hasConflict_eq_any (c : Course) (sel : List Course) :
    hasConflict c sel = sel.any fun s => coursesConflict c s := rfl

/-- Appending a course that does not conflict with a conflict-free
selection keeps it conflict-free. -/
theorem conflictFree_push {c : Course} {sel : List Course}
    (h : hasConflict c sel = false) (hp : ConflictFree sel) :
    ConflictFree (sel ++ [c]) := by
  unfold ConflictFree at hp ⊢
  rw [List.pairwise_append]
  refine ⟨hp, List.pairwise_singleton _ _, ?_⟩
  intro a ha b hb
  simp only [List.mem_singleton] at hb
  subst hb
  rw [hasConflict_eq_any, List.any_eq_false] at h
  rw [coursesConflict_symm]
  simpa using h a ha

/-- `insertBelow` is a permutation of consing. -/
theorem insertBelow_perm (le : α → α → Bool) (x : α) (l : List α) :
    List.Perm (insertBelow le x l) (x :: l) := by
  induction l with
  | nil => exact List.Perm.refl _
  | cons y ys ih =>
    unfold insertBelow
    by_cases h : le y x = true
    · rw [if_pos h]
      exact ((ih.cons y).trans (List.Perm.swap x y ys))
    · rw [if_neg h]

/-- The fold underlying `stableSort` permutes the accumulator and input. -/
theorem stableSort_fold_perm (le : α → α → Bool) (l acc : List α) :
    List.Perm (l.foldl (fun acc x => insertBelow le x acc) acc) (acc ++ l) := by
  induction l generalizing acc with
  | nil => simp
  | cons x t ih =>
    have h1 : (x :: t).foldl (fun acc x => insertBelow le x acc) acc
        = t.foldl (fun acc x => insertBelow le x acc) (insertBelow le x acc) := rfl
    rw [h1]
    refine (ih _).trans ?_
    refine (List.Perm.append_right t (insertBelow_perm le x acc)).trans ?_
    exact List.perm_middle.symm

/-- `stableSort` permutes its input. -/
theorem stableSort_perm (le : α → α → Bool) (l : List α) :
    List.Perm (stableSort le l) l := by
  simpa using stableSort_fold_perm le l []

/-- Membership is preserved by `stableSort`. -/
theorem mem_stableSort (le : α → α → Bool) (l : List α) (a : α) :
    a ∈ stableSort le l ↔ a ∈ l :=
  (stableSort_perm le l).mem_iff

/-- Length is preserved by `stableSort`. -/
theorem length_stableSort (le : α → α → Bool) (l : List α) :
    (stableSort le l).length = l.length :=
  (stableSort_perm le l).length_eq


/-! ## Lemmas about the backtracking search -/

/-- Extending the course suffix preserves `EmittedOk`. -/
theorem emittedOk_lift {K : UserConstraints} {T : Nat} {course : Course}
    {rest sel : List Course} {cand : TimetableCandidate}
    (h : EmittedOk K T rest sel cand) : EmittedOk K T (course :: rest) sel cand := by
  obtain ⟨⟨ext, hs, he⟩, h2, h3, h4, h5⟩ := h
  exact ⟨⟨ext, hs.cons course, he⟩, h2, h3, h4, h5⟩

/-- A candidate emitted after pushing `course` satisfies `EmittedOk` for the
suffix headed by `course`. -/
theorem emittedOk_shift {K : UserConstraints} {T : Nat} {course : Course}
    {rest sel : List Course} {cand : TimetableCandidate}
    (h : EmittedOk K T rest (sel ++ [course]) cand) :
    EmittedOk K T (course :: rest) sel cand := by
  obtain ⟨⟨ext, hs, he⟩, h2, h3, h4, h5⟩ := h
  refine ⟨⟨course :: ext, hs.cons₂ course, ?_⟩, h2, h3, h4, h5⟩
  rw [he, List.append_assoc]
  rfl

/-- Dropping the head of the suffix preserves the id-nodup hypothesis. -/
theorem nodupIds_drop {course : Course} {sel rest : List Course}
    (h : ((sel ++ course :: rest).map Course.courseId).Nodup) :
    ((sel ++ rest).map Course.courseId).Nodup := by
  refine List.Sublist.nodup (List.Sublist.map Course.courseId ?_) h
  exact List.Sublist.append_left (List.sublist_cons_self course rest) sel

/-- The selection-prefix ids are nodup under the combined hypothesis. -/
theorem nodupIds_sel {sel rest : List Course}
    (h : ((sel ++ rest).map Course.courseId).Nodup) :
    (sel.map Course.courseId).Nodup := by
  rw [List.map_append, List.nodup_append] at h
  exact h.1

/-- The chosen course's id cannot occur in a candidate whose selection
extends `sel` inside `rest` only. -/
theorem courseId_not_mem_of_shape {course : Course} {sel rest ext2 : List Course}
    {cand : TimetableCandidate}
    (hN : ((sel ++ course :: rest).map Course.courseId).Nodup)
    (hsub : ext2.Sublist rest) (he : cand.courses = sel ++ ext2) :
    course.courseId ∉ candIds cand := by
  rw [List.map_append, List.nodup_append] at hN
  obtain ⟨hNsel, hNrest, hdisj⟩ := hN
  intro hmem
  rw [candIds, he, List.map_append, List.mem_append] at hmem
  rcases hmem with hmem | hmem
  · exact hdisj hmem (by simp)
  · have : course.courseId ∈ rest.map Course.courseId :=
      List.Sublist.mem hmem (List.Sublist.map Course.courseId hsub)
    simp only [List.map_cons, List.nodup_cons] at hNrest
    exact hNrest.1 this

/-- The chosen course's id occurs in a candidate whose selection passes
through it. -/
theorem courseId_mem_of_shape {course : Course} {sel ext1 : List Course}
    {cand : TimetableCandidate} (he : cand.courses = sel ++ course :: ext1) :
    course.courseId ∈ candIds cand := by
  rw [candIds, he]
  simp

/-- Main specification of the backtracking loop: it only appends candidates,
and every appended candidate extends the running selection by a sub-list of
the course suffix, passes validation, lies in the credit window and is
conflict-free; when course ids are globally distinct, the appended
candidates moreover have nodup ids and pairwise non-permuting id lists. -/
theorem backtrackGo_spec (F : List FixedLecture) (T : Nat) (K : UserConstraints)
    (courses : List Course) :
    ∀ (sel : List Course) (cred : Nat) (cands : List TimetableCandidate)
      (maxC : Nat), cred ≤ T + 3 → ConflictFree sel →
      ∃ new,
        backtrackGo F T K courses sel cred cands maxC = cands ++ new ∧
        (∀ cand ∈ new, EmittedOk K T courses sel cand) ∧
        (((sel ++ courses).map Course.courseId).Nodup →
          (∀ cand ∈ new, (candIds cand).Nodup) ∧
          new.Pairwise fun c1 c2 => ¬ List.Perm (candIds c1) (candIds c2)) := by
  induction courses with
  | nil =>
    intro sel cred cands maxC hcred hpair
    exact ⟨[], by simp [backtrackGo], by simp, fun _ => ⟨by simp, List.Pairwise.nil⟩⟩
  | cons course rest ih =>
    intro sel cred cands maxC hcred hpair
    have heq : backtrackGo F T K (course :: rest) sel cred cands maxC =
        backtrackGo F T K rest sel cred
          (if cred + course.credits > T + 3 then cands
           else if hasConflict course sel then cands
           else if cands.length ≥ maxC then cands
           else if cred + course.credits ≥ T then
             (if isValidSelection (sel ++ [course]) K then
                cands ++ [emitCandidate (sel ++ [course]) (cred + course.credits) F]
              else cands)
           else backtrackGo F T K rest (sel ++ [course]) (cred + course.credits)
             cands maxC) maxC := rfl
    rw [heq]
    by_cases hskip1 : cred + course.credits > T + 3
    · rw [if_pos hskip1]
      obtain ⟨new, hres, hprops, hnodup⟩ := ih sel cred cands maxC hcred hpair
      refine ⟨new, hres, fun cand hc => emittedOk_lift (hprops cand hc), fun hN => hnodup (nodupIds_drop hN)⟩
    rw [if_neg hskip1]
    by_cases hskip2 : hasConflict course sel = true
    · rw [if_pos hskip2]
      obtain ⟨new, hres, hprops, hnodup⟩ := ih sel cred cands maxC hcred hpair
      refine ⟨new, hres, fun cand hc => emittedOk_lift (hprops cand hc), fun hN => hnodup (nodupIds_drop hN)⟩
    rw [if_neg hskip2]
    have hcred2 : cred + course.credits ≤ T + 3 := Nat.le_of_not_lt hskip1
    have hpair2 : ConflictFree (sel ++ [course]) :=
      conflictFree_push (Bool.not_eq_true _ ▸ eq_false_of_ne_true hskip2) hpair
    by_cases hcap : cands.length ≥ maxC
    · rw [if_pos hcap]
      obtain ⟨new, hres, hprops, hnodup⟩ := ih sel cred cands maxC hcred hpair
      refine ⟨new, hres, fun cand hc => emittedOk_lift (hprops cand hc), fun hN => hnodup (nodupIds_drop hN)⟩
    rw [if_neg hcap]
    by_cases htarget : cred + course.credits ≥ T
    · rw [if_pos htarget]
      by_cases hvalid : isValidSelection (sel ++ [course]) K = true
      · rw [if_pos hvalid]
        obtain ⟨new2, hres2, hprops2, hnodup2⟩ :=
          ih sel cred (cands ++ [emitCandidate (sel ++ [course]) (cred + course.credits) F])
            maxC hcred hpair
        set emitted := emitCandidate (sel ++ [course]) (cred + course.credits) F with hemit
        refine ⟨emitted :: new2, by rw [hres2]; simp, ?_, ?_⟩
        · intro cand hc
          rcases List.mem_cons.mp hc with hc | hc
          · subst hc
            refine ⟨⟨[course], List.Sublist.cons₂ course (List.nil_sublist rest), rfl⟩,
              hvalid, htarget, hcred2, hpair2⟩
          · exact emittedOk_lift (hprops2 cand hc)
        · intro hN
          have hN2 := nodupIds_drop hN
          obtain ⟨hnod2, hpw2⟩ := hnodup2 hN2
          constructor
          · intro cand hc
            rcases List.mem_cons.mp hc with hc | hc
            · subst hc
              have : (candIds emitted) = (sel ++ [course]).map Course.courseId := rfl
              rw [this]
              refine List.Sublist.nodup (List.Sublist.map Course.courseId ?_) hN
              exact List.Sublist.append_left
                (List.Sublist.cons₂ course (List.nil_sublist rest)) sel
            · exact hnod2 cand hc
          · rw [List.pairwise_cons]
            refine ⟨?_, hpw2⟩
            intro y hy hperm
            obtain ⟨⟨ext2, hsub2, he2⟩, _, _, _, _⟩ := hprops2 y hy
            have hemitshape : emitted.courses = sel ++ course :: [] := rfl
            have hin : course.courseId ∈ candIds emitted :=
              courseId_mem_of_shape hemitshape
            have hout : course.courseId ∉ candIds y :=
              courseId_not_mem_of_shape hN hsub2 he2
            exact hout (hperm.mem_iff.mp hin)
      · rw [if_neg hvalid]
        obtain ⟨new, hres, hprops, hnodup⟩ := ih sel cred cands maxC hcred hpair
        refine ⟨new, hres, fun cand hc => emittedOk_lift (hprops cand hc), fun hN => hnodup (nodupIds_drop hN)⟩
    · rw [if_neg htarget]
      obtain ⟨new1, hres1, hprops1, hnodup1⟩ :=
        ih (sel ++ [course]) (cred + course.credits) cands maxC hcred2 hpair2
      rw [hres1]
      obtain ⟨new2, hres2, hprops2, hnodup2⟩ :=
        ih sel cred (cands ++ new1) maxC hcred hpair
      refine ⟨new1 ++ new2, by rw [hres2]; simp, ?_, ?_⟩
      · intro cand hc
        rcases List.mem_append.mp hc with hc | hc
        · exact emittedOk_shift (hprops1 cand hc)
        · exact emittedOk_lift (hprops2 cand hc)
      · intro hN
        have hNshift : (((sel ++ [course]) ++ rest).map Course.courseId).Nodup := by
          rw [List.append_assoc]
          exact hN
        have hNdrop := nodupIds_drop hN
        obtain ⟨hnod1, hpw1⟩ := hnodup1 hNshift
        obtain ⟨hnod2, hpw2⟩ := hnodup2 hNdrop
        constructor
        · intro cand hc
          rcases List.mem_append.mp hc with hc | hc
          · exact hnod1 cand hc
          · exact hnod2 cand hc
        · rw [List.pairwise_append]
          refine ⟨hpw1, hpw2, ?_⟩
          intro x hx y hy hperm
          obtain ⟨⟨ext1, hsub1, he1⟩, _⟩ := hprops1 x hx
          obtain ⟨⟨ext2, hsub2, he2⟩, _⟩ := hprops2 y hy
          have he1' : x.courses = sel ++ course :: ext1 := by
            rw [he1, List.append_assoc]
            rfl
          have hin : course.courseId ∈ candIds x := courseId_mem_of_shape he1'
          have hout : course.courseId ∉ candIds y :=
            courseId_not_mem_of_shape hN hsub2 he2
          exact hout (hperm.mem_iff.mp hin)


/-- Entry specification of `backtrack` (entry guards plus the loop). -/
theorem backtrack_spec (courses : List Course) (F : List FixedLecture)
    (B : List BlockedTime) (T : Nat) (K : UserConstraints) (S : Strategy)
    (tr ints : List String) (sel : List Course) (cred : Nat)
    (cands : List TimetableCandidate) (maxC : Nat)
    (hcred : cred ≤ T + 3) (hpair : ConflictFree sel) :
    ∃ new,
      backtrack courses F B T K S tr ints sel cred cands maxC = cands ++ new ∧
      (∀ cand ∈ new, EmittedOk K T courses sel cand) ∧
      (((sel ++ courses).map Course.courseId).Nodup →
        (∀ cand ∈ new, (candIds cand).Nodup) ∧
        new.Pairwise fun c1 c2 => ¬ List.Perm (candIds c1) (candIds c2)) := by
  unfold backtrack
  by_cases hcap : cands.length ≥ maxC
  · rw [if_pos hcap]
    exact ⟨[], by simp, by simp, fun _ => ⟨by simp, List.Pairwise.nil⟩⟩
  rw [if_neg hcap]
  by_cases htarget : cred ≥ T
  · rw [if_pos htarget]
    by_cases hvalid : isValidSelection sel K = true
    · rw [if_pos hvalid]
      refine ⟨[emitCandidate sel cred F], rfl, ?_, ?_⟩
      · intro cand hc
        rw [List.mem_singleton] at hc
        subst hc
        exact ⟨⟨[], List.nil_sublist courses, (List.append_nil sel).symm⟩,
          hvalid, htarget, hcred, hpair⟩
      · intro hN
        refine ⟨?_, List.pairwise_singleton _ _⟩
        intro cand hc
        rw [List.mem_singleton] at hc
        subst hc
        exact nodupIds_sel hN
    · rw [if_neg hvalid]
      exact ⟨[], by simp, by simp, fun _ => ⟨by simp, List.Pairwise.nil⟩⟩
  · rw [if_neg htarget]
    exact backtrackGo_spec F T K courses sel cred cands maxC hcred hpair

/-- The backtracking loop never grows the candidate list past the cap. -/
theorem backtrackGo_length (F : List FixedLecture) (T : Nat)
    (K : UserConstraints) (courses : List Course) :
    ∀ (sel : List Course) (cred : Nat) (cands : List TimetableCandidate)
      (maxC : Nat), cands.length ≤ maxC →
      (backtrackGo F T K courses sel cred cands maxC).length ≤ maxC := by
  induction courses with
  | nil =>
    intro sel cred cands maxC h
    simpa [backtrackGo] using h
  | cons course rest ih =>
    intro sel cred cands maxC h
    have heq : backtrackGo F T K (course :: rest) sel cred cands maxC =
        backtrackGo F T K rest sel cred
          (if cred + course.credits > T + 3 then cands
           else if hasConflict course sel then cands
           else if cands.length ≥ maxC then cands
           else if cred + course.credits ≥ T then
             (if isValidSelection (sel ++ [course]) K then
                cands ++ [emitCandidate (sel ++ [course]) (cred + course.credits) F]
              else cands)
           else backtrackGo F T K rest (sel ++ [course]) (cred + course.credits)
             cands maxC) maxC := rfl
    rw [heq]
    refine ih sel cred _ maxC ?_
    by_cases h1 : cred + course.credits > T + 3
    · rw [if_pos h1]; exact h
    rw [if_neg h1]
    by_cases h2 : hasConflict course sel = true
    · rw [if_pos h2]; exact h
    rw [if_neg h2]
    by_cases h3 : cands.length ≥ maxC
    · rw [if_pos h3]; exact h
    rw [if_neg h3]
    by_cases h4 : cred + course.credits ≥ T
    · rw [if_pos h4]
      by_cases h5 : isValidSelection (sel ++ [course]) K = true
      · rw [if_pos h5]
        rw [List.length_append, List.length_singleton]
        omega
      · rw [if_neg h5]; exact h
    · rw [if_neg h4]
      exact ih (sel ++ [course]) (cred + course.credits) cands maxC h

/-- `backtrack` never grows the candidate list past the cap. -/
theorem backtrack_length (courses : List Course) (F : List FixedLecture)
    (B : List BlockedTime) (T : Nat) (K : UserConstraints) (S : Strategy)
    (tr ints : List String) (sel : List Course) (cred : Nat)
    (cands : List TimetableCandidate) (maxC : Nat)
    (h : cands.length ≤ maxC) :
    (backtrack courses F B T K S tr ints sel cred cands maxC).length ≤ maxC := by
  unfold backtrack
  by_cases hcap : cands.length ≥ maxC
  · rw [if_pos hcap]; exact h
  rw [if_neg hcap]
  by_cases htarget : cred ≥ T
  · rw [if_pos htarget]
    by_cases hvalid : isValidSelection sel K = true
    · rw [if_pos hvalid]
      rw [List.length_append, List.length_singleton]
      omega
    · rw [if_neg hvalid]; exact h
  · rw [if_neg htarget]
    exact backtrackGo_length F T K courses sel cred cands maxC h

/-- Once the cap is reached the loop leaves the candidate list untouched. -/
theorem backtrackGo_at_cap (F : List FixedLecture) (T : Nat)
    (K : UserConstraints) (courses : List Course) :
    ∀ (sel : List Course) (cred : Nat) (cands : List TimetableCandidate)
      (maxC : Nat), cands.length ≥ maxC →
      backtrackGo F T K courses sel cred cands maxC = cands := by
  induction courses with
  | nil =>
    intro sel cred cands maxC _
    simp [backtrackGo]
  | cons course rest ih =>
    intro sel cred cands maxC h
    have heq : backtrackGo F T K (course :: rest) sel cred cands maxC =
        backtrackGo F T K rest sel cred
          (if cred + course.credits > T + 3 then cands
           else if hasConflict course sel then cands
           else if cands.length ≥ maxC then cands
           else if cred + course.credits ≥ T then
             (if isValidSelection (sel ++ [course]) K then
                cands ++ [emitCandidate (sel ++ [course]) (cred + course.credits) F]
              else cands)
           else backtrackGo F T K rest (sel ++ [course]) (cred + course.credits)
             cands maxC) maxC := rfl
    rw [heq]
    have hchain : (if cred + course.credits > T + 3 then cands
           else if hasConflict course sel then cands
           else if cands.length ≥ maxC then cands
           else if cred + course.credits ≥ T then
             (if isValidSelection (sel ++ [course]) K then
                cands ++ [emitCandidate (sel ++ [course]) (cred + course.credits) F]
              else cands)
           else backtrackGo F T K rest (sel ++ [course]) (cred + course.credits)
             cands maxC) = cands := by
      by_cases h1 : cred + course.credits > T + 3
      · rw [if_pos h1]
      rw [if_neg h1]
      by_cases h2 : hasConflict course sel = true
      · rw [if_pos h2]
      rw [if_neg h2]
      rw [if_pos h]
    rw [hchain]
    exact ih sel cred cands maxC h

/-- `scoreCandidate` leaves the course list unchanged. -/
theorem scoreCandidate_courses (c : TimetableCandidate) (T : Nat)
    (K : UserConstraints) (S : Strategy) (tr ints : List String) :
    (scoreCandidate c T K S tr ints).courses = c.courses := rfl

/-- `scoreCandidate` leaves the credit total unchanged. -/
theorem scoreCandidate_totalCredits (c : TimetableCandidate) (T : Nat)
    (K : UserConstraints) (S : Strategy) (tr ints : List String) :
    (scoreCandidate c T K S tr ints).totalCredits = c.totalCredits := rfl

/-- Membership characterization of the hard filter: a course survives iff it
was in the input, has at least one meeting time, and has no slot overlapping
any fixed-lecture slot nor any blocked interval. -/
theorem mem_filterValidCourses (courses : List Course) (F : List FixedLecture)
    (B : List BlockedTime) (K : UserConstraints) (course : Course) :
    course ∈ filterValidCourses courses F B K ↔
      course ∈ courses ∧ course.meetingTimes ≠ [] ∧
      (∀ f ∈ F, ∀ cs ∈ course.meetingTimes, ∀ fs ∈ f.meetingTimes,
        timeSlotsOverlap cs fs = false) ∧
      (∀ b ∈ B, ∀ cs ∈ course.meetingTimes,
        timeSlotsOverlap cs b.toSlot = false) := by
  unfold filterValidCourses
  rw [List.mem_filter]
  constructor
  · rintro ⟨hmem, hp⟩
    split_ifs at hp with h1 h2 h3
    refine ⟨hmem, by simpa [List.isEmpty_iff] using h1, ?_, ?_⟩
    · intro f hf cs hcs fs hfs
      simp only [Bool.not_eq_true, List.any_eq_false] at h2
      simpa using h2 f hf cs hcs fs hfs
    · intro b hb cs hcs
      simp only [Bool.not_eq_true, List.any_eq_false] at h3
      simpa using h3 b hb cs hcs
  · rintro ⟨hmem, hne, hfix, hblock⟩
    refine ⟨hmem, ?_⟩
    split_ifs with h1 h2 h3
    · exact absurd (List.isEmpty_iff.mp h1) hne
    · simp only [List.any_eq_true] at h2
      obtain ⟨f, hf, cs, hcs, fs, hfs, hov⟩ := h2
      exact absurd hov (by simp [hfix f hf cs hcs fs hfs])
    · simp only [List.any_eq_true] at h3
      obtain ⟨b, hb, cs, hcs, hov⟩ := h3
      exact absurd hov (by simp [hblock b hb cs hcs])
    · rfl

/-- Every candidate returned by `generateCandidates` passes validation, has
credits in the window, is conflict-free, and draws all its courses from the
hard-filtered pool. -/
theorem mem_generateCandidates_facts (courses : List Course)
    (F : List FixedLecture) (B : List BlockedTime) (T : Nat)
    (Kc : ConstraintsWithHard) (S : Strategy) (tr ints : List String)
    (cand : TimetableCandidate)
    (hc : cand ∈ (generateCandidates courses F B T Kc S tr ints).candidates) :
    isValidSelection cand.courses Kc.soft = true ∧
    T ≤ cand.totalCredits ∧ cand.totalCredits ≤ T + 3 ∧
    ConflictFree cand.courses ∧
    ∀ c ∈ cand.courses,
      c ∈ filterValidCourses courses F B (Kc.hardConstraints.getD {}) := by
  unfold generateCandidates at hc
  simp only at hc
  rw [mem_stableSort, List.mem_map] at hc
  obtain ⟨c0, hc0, hcand⟩ := hc
  obtain ⟨new, hres, hprops, -⟩ :=
    backtrack_spec
      (sortCoursesByPriority
        (filterValidCourses courses F B (Kc.hardConstraints.getD {})) S tr ints Kc.soft)
      F B T Kc.soft S tr ints [] 0 [] 50 (Nat.zero_le _) List.Pairwise.nil
  rw [hres, List.nil_append] at hc0
  obtain ⟨⟨ext, hsub, hext⟩, hvalid, hlow, hhigh, hcf⟩ := hprops c0 hc0
  rw [List.nil_append] at hext
  subst hcand
  rw [scoreCandidate_courses, scoreCandidate_totalCredits]
  refine ⟨hvalid, hlow, hhigh, hcf, ?_⟩
  intro c hcmem
  rw [hext] at hcmem
  have : c ∈ sortCoursesByPriority
      (filterValidCourses courses F B (Kc.hardConstraints.getD {})) S tr ints Kc.soft :=
    hsub.subset hcmem
  rw [sortCoursesByPriority, mem_stableSort] at this
  exact this


/-- Membership-aware monotonicity of `List.Pairwise`. -/
theorem pairwiseImpOfMem {R S : α → α → Prop} {l : List α}
    (h : ∀ a ∈ l, ∀ b ∈ l, R a b → S a b) (hp : l.Pairwise R) : l.Pairwise S := by
  induction l with
  | nil => exact List.Pairwise.nil
  | cons x t ih =>
    rw [List.pairwise_cons] at hp ⊢
    refine ⟨fun b hb => h x (by simp) b (by simp [hb]) (hp.1 b hb), ?_⟩
    exact ih (fun a ha b hb => h a (by simp [ha]) b (by simp [hb])) hp.2

/-- When course ids are globally distinct, the candidates returned by
`generateCandidates` have nodup id lists, pairwise non-permuting. -/
theorem generateCandidates_ids (courses : List Course) (F : List FixedLecture)
    (B : List BlockedTime) (T : Nat) (Kc : ConstraintsWithHard) (S : Strategy)
    (tr ints : List String)
    (hids : (courses.map Course.courseId).Nodup) :
    (∀ cand ∈ (generateCandidates courses F B T Kc S tr ints).candidates,
      (candIds cand).Nodup) ∧
    (generateCandidates courses F B T Kc S tr ints).candidates.Pairwise
      fun c1 c2 => ¬ List.Perm (candIds c1) (candIds c2) := by
  have hpool : ((([] : List Course) ++ sortCoursesByPriority
      (filterValidCourses courses F B (Kc.hardConstraints.getD {})) S tr ints
      Kc.soft).map Course.courseId).Nodup := by
    rw [List.nil_append]
    have h1 : List.Perm (sortCoursesByPriority (filterValidCourses courses F B
        (Kc.hardConstraints.getD {})) S tr ints Kc.soft)
        (filterValidCourses courses F B (Kc.hardConstraints.getD {})) :=
      stableSort_perm _ _
    have h2 : ((filterValidCourses courses F B (Kc.hardConstraints.getD {})).map
        Course.courseId).Nodup :=
      List.Sublist.nodup (List.Sublist.map _ (List.filter_sublist _)) hids
    exact ((h1.map Course.courseId).nodup_iff).mpr h2
  obtain ⟨new, hres, hprops, hnodup⟩ :=
    backtrack_spec (sortCoursesByPriority (filterValidCourses courses F B
      (Kc.hardConstraints.getD {})) S tr ints Kc.soft) F B T Kc.soft S tr ints
      [] 0 [] 50 (Nat.zero_le _) List.Pairwise.nil
  obtain ⟨hnod, hpw⟩ := hnodup hpool
  unfold generateCandidates
  simp only
  rw [hres, List.nil_append]
  constructor
  · intro cand hc
    rw [mem_stableSort, List.mem_map] at hc
    obtain ⟨c0, hc0, rfl⟩ := hc
    exact hnod c0 hc0
  · have hsymm : ∀ {c1 c2 : TimetableCandidate},
        (¬ List.Perm (candIds c1) (candIds c2)) →
          ¬ List.Perm (candIds c2) (candIds c1) :=
      fun h hp => h hp.symm
    refine ((stableSort_perm _ _).pairwise_iff fun h => hsymm h).mpr ?_
    rw [List.pairwise_map]
    exact hpw

/-! ## Claims about the overlap predicate -/

/-- C2: `timeSlotsOverlap` returns false on distinct days, and on equal days
returns true exactly when `a.start < b.end ∧ b.start < a.end` in minutes
since midnight; the spec's two boundary examples behave as documented. -/
theorem claim_C2 :
    (∀ a b : TimeSlot,
      (a.day ≠ b.day → timeSlotsOverlap a b = false) ∧
      (a.day = b.day →
        (timeSlotsOverlap a b = true ↔
          timeToMinutes a.startTime < timeToMinutes b.endTime ∧
          timeToMinutes b.startTime < timeToMinutes a.endTime))) ∧
    timeSlotsOverlap slotMon9to10 slotMon10to11 = false ∧
    timeSlotsOverlap slotMon9to10 slotMon959to1030 = true := by
  refine ⟨fun a b => ⟨fun hne => ?_, fun heq => ?_⟩, by decide, by decide⟩
  · simp [timeSlotsOverlap, hne]
  · simp [timeSlotsOverlap, heq]

/-- Witness for C2: the general part applied at concrete slots. -/
theorem claim_C2_witness :
    timeSlotsOverlap slotMon9to10 ⟨.TUE, ⟨9, 0⟩, ⟨10, 0⟩⟩ = false ∧
    (timeSlotsOverlap slotMon9to10 slotMon959to1030 = true ↔
      timeToMinutes slotMon9to10.startTime < timeToMinutes slotMon959to1030.endTime ∧
      timeToMinutes slotMon959to1030.startTime < timeToMinutes slotMon9to10.endTime) :=
  ⟨(claim_C2.1 slotMon9to10 ⟨.TUE, ⟨9, 0⟩, ⟨10, 0⟩⟩).1 (by decide),
   (claim_C2.1 slotMon9to10 slotMon959to1030).2 rfl⟩

/-- C10: the slot-overlap predicate is symmetric. -/
theorem claim_C10 (a b : TimeSlot) :
    timeSlotsOverlap a b = timeSlotsOverlap b a :=
  timeSlotsOverlap_symm a b


/-! ## Claims about the scheduler -/

/-- C1 (amended): every candidate returned by `generateCandidates` has no
overlap between meeting slots of two distinct member courses, and none of
its course slots overlaps any fixed-lecture slot. (The claim as frozen also
forbids overlap between two slots of the same course, which the code does
not enforce; see the counterexample.) -/
theorem claim_C1 (courses : List Course) (F : List FixedLecture)
    (B : List BlockedTime) (T : Nat) (Kc : ConstraintsWithHard) (S : Strategy)
    (tr ints : List String) (cand : TimetableCandidate)
    (hc : cand ∈ (generateCandidates courses F B T Kc S tr ints).candidates) :
    cand.courses.Pairwise (fun a b => ∀ s1 ∈ a.meetingTimes,
      ∀ s2 ∈ b.meetingTimes, timeSlotsOverlap s1 s2 = false) ∧
    ∀ c ∈ cand.courses, ∀ s ∈ c.meetingTimes, ∀ f ∈ F, ∀ fs ∈ f.meetingTimes,
      timeSlotsOverlap s fs = false := by
  obtain ⟨hvalid, hlow, hhigh, hcf, hpool⟩ :=
    mem_generateCandidates_facts courses F B T Kc S tr ints cand hc
  constructor
  · refine List.Pairwise.imp ?_ hcf
    intro a b hab
    intro s1 h1 s2 h2
    simp only [coursesConflict, List.any_eq_false, Bool.not_eq_true] at hab
    exact hab s1 h1 s2 h2
  · intro c hcmem s hs f hf fs hfs
    have hmem := (mem_filterValidCourses courses F B
      (Kc.hardConstraints.getD {}) c).mp (hpool c hcmem)
    exact hmem.2.2.1 f hf s hs fs hfs

/-- Counterexample to C1 as frozen: a course whose own two meeting slots
overlap produces a returned candidate containing two distinct, mutually
overlapping meeting slots. -/
theorem claim_C1_counterexample :
    ∃ cand ∈ (generateCandidates [courseDup] [] [] 3 {} .MIX [] []).candidates,
      ∃ s1 ∈ cand.courses.flatMap Course.meetingTimes,
        ∃ s2 ∈ cand.courses.flatMap Course.meetingTimes,
          s1 ≠ s2 ∧ timeSlotsOverlap s1 s2 = true := by decide

/-- Witness for C1, at the two-course pool with target 6. -/
theorem claim_C1_witness :
    witnessCand.courses.Pairwise (fun a b => ∀ s1 ∈ a.meetingTimes,
      ∀ s2 ∈ b.meetingTimes, timeSlotsOverlap s1 s2 = false) ∧
    ∀ c ∈ witnessCand.courses, ∀ s ∈ c.meetingTimes,
      ∀ f ∈ ([] : List FixedLecture), ∀ fs ∈ f.meetingTimes,
        timeSlotsOverlap s fs = false :=
  claim_C1 witnessPool [] [] 6 {} .MIX [] [] witnessCand (by decide)

/-- C3 (amended): a combination violating the soft `maxClassesPerDay` bound
is never returned: every returned candidate satisfies the bound on every
day, because `isValidSelection` rejects the selection at emission time (the
constraint acts as a validity filter, not as a warning plus score
penalty). -/
theorem claim_C3 (courses : List Course) (F : List FixedLecture)
    (B : List BlockedTime) (T : Nat) (Kc : ConstraintsWithHard) (S : Strategy)
    (tr ints : List String) (cand : TimetableCandidate)
    (hc : cand ∈ (generateCandidates courses F B T Kc S tr ints).candidates) :
    isValidSelection cand.courses Kc.soft = true ∧
    ∀ m, Kc.soft.maxClassesPerDay = some m → m ≠ 0 →
      ∀ d : DayOfWeek,
        ((cand.courses.flatMap Course.meetingTimes).countP
          fun slot => slot.day == d) ≤ m := by
  obtain ⟨hvalid, -, -, -, -⟩ :=
    mem_generateCandidates_facts courses F B T Kc S tr ints cand hc
  refine ⟨hvalid, ?_⟩
  intro m hm hm0 d
  unfold isValidSelection at hvalid
  rw [hm] at hvalid
  have ht : optNatTruthy (some m) = true := by simp [optNatTruthy, hm0]
  rw [if_pos ht] at hvalid
  rw [List.all_eq_true] at hvalid
  have hd : d ∈ daysList := by cases d <;> simp [daysList]
  simpa using hvalid d hd

/-- Counterexample to C3 as frozen: three 1-credit MON courses reach the
credit window for target 3 with three same-day classes; under soft
`maxClassesPerDay = 2` the engine returns no candidate at all (the same
input without the constraint returns exactly one), so the violating
combination is not "still returned" with a warning and lower score. -/
theorem claim_C3_counterexample :
    (generateCandidates monPool [] [] 3 softMax2 .MIX [] []).candidates = [] ∧
    (generateCandidates monPool [] [] 3 {} .MIX [] []).candidates.length = 1 ∧
    courseM1.credits + courseM2.credits + courseM3.credits = 3 ∧
    ((monPool.flatMap Course.meetingTimes).countP
      fun s => s.day == DayOfWeek.MON) = 3 := by decide

/-- Witness for C3, at the two-course pool under soft `maxClassesPerDay = 2`. -/
theorem claim_C3_witness :
    isValidSelection witnessCandC3.courses softMax2.soft = true ∧
    ∀ m, softMax2.soft.maxClassesPerDay = some m → m ≠ 0 →
      ∀ d : DayOfWeek,
        ((witnessCandC3.courses.flatMap Course.meetingTimes).countP
          fun slot => slot.day == d) ≤ m :=
  claim_C3 witnessPool [] [] 6 softMax2 .MIX [] [] witnessCandC3 (by decide)

/-- C4 (amended): the hard filter removes a course exactly when it has zero
meeting times, or a slot overlapping a fixed lecture, or a slot overlapping
a blocked interval; the survivors form a sub-list of the input; and the
constraint bundle — hard-marked members included — never influences removal
at this stage (contrary to the claim as frozen, which also lists hard
`avoidDays`/`avoidMorning`/`keepLunchTime` as removal causes). -/
theorem claim_C4 (courses : List Course) (F : List FixedLecture)
    (B : List BlockedTime) (K K' : UserConstraints) (course : Course) :
    (course ∈ filterValidCourses courses F B K ↔
      course ∈ courses ∧ course.meetingTimes ≠ [] ∧
      (∀ f ∈ F, ∀ cs ∈ course.meetingTimes, ∀ fs ∈ f.meetingTimes,
        timeSlotsOverlap cs fs = false) ∧
      (∀ b ∈ B, ∀ cs ∈ course.meetingTimes,
        timeSlotsOverlap cs b.toSlot = false)) ∧
    (filterValidCourses courses F B K).Sublist courses ∧
    filterValidCourses courses F B K = filterValidCourses courses F B K' :=
  ⟨mem_filterValidCourses courses F B K course, List.filter_sublist _, rfl⟩

/-- Counterexample to C4 as frozen: a MON-only course violating an
explicitly hard `avoidDays = [MON]` (and hard `avoidMorning`) survives the
hard filter, and the full engine still returns a candidate containing it. -/
theorem claim_C4_counterexample :
    filterValidCourses [courseMon] [] []
      { avoidDays := [DayOfWeek.MON], avoidMorning := true } = [courseMon] ∧
    (courseMon.meetingTimes.any fun s => [DayOfWeek.MON].contains s.day) = true ∧
    (courseMon.meetingTimes.any fun s => isMorningTime s.startTime) = true ∧
    (generateCandidates [courseMon] [] [] 3
      ⟨{}, some { avoidDays := [DayOfWeek.MON], avoidMorning := true }⟩
      .MIX [] []).candidates.length = 1 := by decide

/-- Witness for C4: the filter output is identical under the empty
constraint bundle and under a hard `avoidDays = [MON]`. -/
theorem claim_C4_witness :
    filterValidCourses witnessPool [] [] {} =
      filterValidCourses witnessPool [] [] { avoidDays := [DayOfWeek.MON] } :=
  (claim_C4 witnessPool [] [] {} { avoidDays := [DayOfWeek.MON] } courseA).2.2

/-- C5: at most `maxCandidates = 50` candidates are ever produced, the
returned list is a permutation of the scored backtracking output (candidates
accumulated before the cap are still scored and returned), and a backtrack
call whose accumulated count has reached the cap returns immediately with
the list unchanged. -/
theorem claim_C5 :
    (∀ (courses : List Course) (F : List FixedLecture) (B : List BlockedTime)
        (T : Nat) (Kc : ConstraintsWithHard) (S : Strategy)
        (tr ints : List String),
      (generateCandidates courses F B T Kc S tr ints).candidates.length ≤ 50 ∧
      List.Perm (generateCandidates courses F B T Kc S tr ints).candidates
        ((backtrack (sortCoursesByPriority (filterValidCourses courses F B
            (Kc.hardConstraints.getD {})) S tr ints Kc.soft) F B T Kc.soft S tr
            ints [] 0 [] 50).map
          fun c => scoreCandidate c T Kc.soft S tr ints)) ∧
    (∀ (courses : List Course) (F : List FixedLecture) (B : List BlockedTime)
        (T : Nat) (K : UserConstraints) (S : Strategy) (tr ints : List String)
        (sel : List Course) (cred : Nat) (cands : List TimetableCandidate)
        (maxC : Nat), cands.length ≥ maxC →
      backtrack courses F B T K S tr ints sel cred cands maxC = cands) := by
  constructor
  · intro courses F B T Kc S tr ints
    constructor
    · unfold generateCandidates
      simp only
      rw [length_stableSort, List.length_map]
      exact backtrack_length _ _ _ _ _ _ _ _ _ _ _ _ (by simp)
    · unfold generateCandidates
      simp only
      exact stableSort_perm _ _
  · intro courses F B T K S tr ints sel cred cands maxC h
    unfold backtrack
    rw [if_pos h]

/-- Witness for C5: the cap bound at the two-course pool, and immediate
return of a backtrack call already at its cap. -/
theorem claim_C5_witness :
    (generateCandidates witnessPool [] [] 6 {} .MIX [] []).candidates.length ≤ 50 ∧
    backtrack [] [] [] 0 {} .MIX [] [] [] 0 [default] 1 = [default] :=
  ⟨(claim_C5.1 witnessPool [] [] 6 {} .MIX [] []).1,
   claim_C5.2 [] [] [] 0 {} .MIX [] [] [] 0 [default] 1 (by decide)⟩

/-- C6: every returned candidate's `totalCredits` lies in the tolerance
window `[targetCredits, targetCredits + 3]`: a selection is emitted once its
running credits reach the target, and expansion skips any course that would
push the running credits past `target + 3`. -/
theorem claim_C6 (courses : List Course) (F : List FixedLecture)
    (B : List BlockedTime) (T : Nat) (Kc : ConstraintsWithHard) (S : Strategy)
    (tr ints : List String) (cand : TimetableCandidate)
    (hc : cand ∈ (generateCandidates courses F B T Kc S tr ints).candidates) :
    T ≤ cand.totalCredits ∧ cand.totalCredits ≤ T + 3 := by
  obtain ⟨-, h1, h2, -, -⟩ :=
    mem_generateCandidates_facts courses F B T Kc S tr ints cand hc
  exact ⟨h1, h2⟩

/-- Witness for C6, at the two-course pool with target 6. -/
theorem claim_C6_witness :
    6 ≤ witnessCand.totalCredits ∧ witnessCand.totalCredits ≤ 6 + 3 :=
  claim_C6 witnessPool [] [] 6 {} .MIX [] [] witnessCand (by decide)

/-- C7: when the input course ids are pairwise distinct, no returned
candidate contains the same course id twice, and no two returned candidates
have identical course-id sets (the suffix-only recursion generates each
subset at most once). -/
theorem claim_C7 (courses : List Course) (F : List FixedLecture)
    (B : List BlockedTime) (T : Nat) (Kc : ConstraintsWithHard) (S : Strategy)
    (tr ints : List String)
    (hids : (courses.map Course.courseId).Nodup) :
    (∀ cand ∈ (generateCandidates courses F B T Kc S tr ints).candidates,
      (candIds cand).Nodup) ∧
    (generateCandidates courses F B T Kc S tr ints).candidates.Pairwise
      fun c1 c2 => (candIds c1).toFinset ≠ (candIds c2).toFinset := by
  obtain ⟨hnod, hpw⟩ := generateCandidates_ids courses F B T Kc S tr ints hids
  refine ⟨hnod, ?_⟩
  refine pairwiseImpOfMem ?_ hpw
  intro c1 h1 c2 h2 hnp he
  exact hnp (List.perm_of_nodup_nodup_toFinset_eq (hnod c1 h1) (hnod c2 h2) he)

/-- Witness for C7, at the two-course pool. -/
theorem claim_C7_witness : (candIds witnessCand).Nodup :=
  (claim_C7 witnessPool [] [] 6 {} .MIX [] [] (by decide)).1 witnessCand (by decide)

/-- C8: when every course overlaps some blocked interval and the target is
positive, the engine produces zero candidates and the response builder
returns the structured infeasibility diagnostic (a value, not an
exception — the whole modelled pipeline is total), and that diagnostic
cites blocked times whenever the blocked-interval list is non-empty. -/
theorem claim_C8 (courses : List Course) (F : List FixedLecture)
    (B : List BlockedTime) (T : Nat) (Kc : ConstraintsWithHard) (S : Strategy)
    (tr ints : List String) (basket : List String) (runMeta : RunMeta)
    (hB : B ≠ []) (hT : 0 < T)
    (hall : ∀ c ∈ courses, ∃ s ∈ c.meetingTimes, ∃ b ∈ B,
      timeSlotsOverlap s b.toSlot = true) :
    (generateCandidates courses F B T Kc S tr ints).candidates = [] ∧
    buildRecommendationResponse
        (generateCandidates courses F B T Kc S tr ints).candidates Kc B basket
        T runMeta =
      .failure (generateFailureExplanation basket Kc T B) ∧
    "차단 시간" ∈
      (generateFailureExplanation basket Kc T B).details.conflictingConstraints := by
  have hfilter : filterValidCourses courses F B (Kc.hardConstraints.getD {}) = [] := by
    unfold filterValidCourses
    rw [List.filter_eq_nil_iff]
    intro c hcm
    obtain ⟨s, hs, b, hb, hov⟩ := hall c hcm
    intro hp
    split_ifs at hp with h1 h2 h3
    apply h3
    rw [List.any_eq_true]
    refine ⟨b, hb, ?_⟩
    rw [List.any_eq_true]
    exact ⟨s, hs, hov⟩
  have hback : backtrack ([] : List Course) F B T Kc.soft S tr ints [] 0 [] 50 = [] := by
    unfold backtrack
    rw [if_neg (by simp), if_neg (by omega)]
    rfl
  have hcands : (generateCandidates courses F B T Kc S tr ints).candidates = [] := by
    unfold generateCandidates
    simp only
    rw [hfilter]
    have hsort : sortCoursesByPriority ([] : List Course) S tr ints Kc.soft = [] := rfl
    rw [hsort, hback]
    rfl
  refine ⟨hcands, ?_, ?_⟩
  · rw [hcands]
    rfl
  · unfold generateFailureExplanation
    simp only
    have hBne : (!B.isEmpty) = true := by
      cases B with
      | nil => exact absurd rfl hB
      | cons b bs => rfl
    simp [hBne]

/-- Witness for C8: a single MON course fully blocked by a MON interval. -/
theorem claim_C8_witness :
    (generateCandidates [courseMon] [] [blockedMon] 15 {} .MIX [] []).candidates = [] ∧
    buildRecommendationResponse
        (generateCandidates [courseMon] [] [blockedMon] 15 {} .MIX [] []).candidates
        {} [blockedMon] [] 15 ⟨0, false, 0⟩ =
      .failure (generateFailureExplanation [] {} 15 [blockedMon]) ∧
    "차단 시간" ∈
      (generateFailureExplanation [] {} 15 [blockedMon]).details.conflictingConstraints :=
  claim_C8 [courseMon] [] [blockedMon] 15 {} .MIX [] [] [] ⟨0, false, 0⟩
    (by decide) (by decide) (by decide)

/-- C9: the engine is deterministic — the embedded pipeline is a pure
function of its inputs (the modelled code path contains no randomness,
clock reads or shared mutable state), so two invocations on identical
inputs return identical candidate lists, scores and warnings. -/
theorem claim_C9 (courses : List Course) (F : List FixedLecture)
    (B : List BlockedTime) (T : Nat) (Kc : ConstraintsWithHard) (S : Strategy)
    (tr ints : List String) :
    generateCandidates courses F B T Kc S tr ints =
      generateCandidates courses F B T Kc S tr ints := rfl
